import Mathlib

/-!
Shallow embedding of the nua-file-storage-system server (Express + drizzle),
covering the access-control and sharing resolution engine:

* data model: `file`, `share`, `activity_log` tables (packages/db schema),
  with the drizzle relations and cascade behaviour made explicit;
* the share routes (`POST /:fileId/user`, `POST /:fileId/link`,
  `GET /link/:token`, `DELETE /:shareId`);
* the file routes (`POST /upload`, `GET /:id`, `GET /:id/download`,
  `DELETE /:id`).

Database queries (`findFirst`) become `List.find?` over the table lists;
`NOW()` becomes an explicit `now : Int` parameter; timestamps are `Int`.
SQL `eq(col, v)` on a nullable column is false when the column is NULL,
which `Option.some v` equality models exactly.
-/

namespace NuaFS

/-- shareTypeEnum from the drizzle schema: share_type is user or link. -/
inductive ShareType where
  | user
  | link
deriving DecidableEq, Repr

/-- roleEnum from the drizzle schema: role is owner, viewer or editor. -/
inductive Role where
  | owner
  | viewer
  | editor
deriving DecidableEq, Repr

/-- activityTypeEnum from the drizzle schema. -/
inductive ActivityType where
  | upload
  | download
  | share
  | unshare
  | delete
deriving DecidableEq, Repr

/-- A row of the `file` table. -/
structure FileRec where
  id : String
  filename : String
  cloudinaryId : String
  fileUrl : String
  size : Nat
  type : String
  resourceType : Option String
  ownerId : String
deriving DecidableEq, Repr

/-- A row of the `user` table (only the columns the share routes read). -/
structure UserRec where
  id : String
  email : String
  name : String
deriving DecidableEq, Repr

/-- A row of the `share` table.  `sharedWithUserId` and `token` are nullable
columns (link shares leave `sharedWithUserId` NULL, user shares leave `token`
NULL). -/
structure Share where
  id : String
  fileId : String
  shareType : ShareType
  sharedWithUserId : Option String
  token : Option String
  role : Role
  expiresAt : Option Int
  createdBy : String
deriving DecidableEq, Repr

/-- A row of the `activity_log` table. -/
structure ActivityEntry where
  id : String
  fileId : String
  userId : String
  activityType : ActivityType
  metadata : Option String
deriving DecidableEq, Repr

/-- The database state read and written by the routes. -/
structure DB where
  files : List FileRec
  users : List UserRec
  shares : List Share
  activity : List ActivityEntry
deriving DecidableEq, Repr

/-- The SQL condition `or(isNull(share.expiresAt), share.expiresAt > NOW())`
used by the user-access lookups in files.ts. -/
def shareNotExpired (now : Int) (s : Share) : Bool :=
  match s.expiresAt with
  | none => true
  | some t => now < t

/-- The WHERE clause of the `hasShare` lookup in `GET /api/files/:id` and
`GET /api/files/:id/download`: `and(eq(share.fileId, file.id),
eq(share.sharedWithUserId, req.user.id), or(isNull(expiresAt), expiresAt > NOW()))`.
Note it does not filter on `shareType`. -/
def userAccessShare (now : Int) (userId fileId : String) (s : Share) : Bool :=
  s.fileId == fileId && s.sharedWithUserId == some userId && shareNotExpired now s

/-- The access decision computed by `GET /api/files/:id` (and `/download`):
404 NotFound, 403 Denied, or the effective role in the response body. -/
inductive AccessDecision where
  | allowed (role : Role)
  | denied
  | notFound
deriving DecidableEq, Repr

/-- Access resolution of `GET /api/files/:id` / `GET /api/files/:id/download`:
look up the file; owners get role owner; otherwise `findFirst` share with
`sharedWithUserId == userId` that is not expired; otherwise 403. -/
def resolveByUser (db : DB) (now : Int) (userId fileId : String) : AccessDecision :=
  match db.files.find? (fun f => f.id == fileId) with
  | none => .notFound
  | some fileRecord =>
    if fileRecord.ownerId == userId then
      .allowed .owner
    else
      match db.shares.find? (userAccessShare now userId fileRecord.id) with
      | some s => .allowed s.role
      | none => .denied

/-- The outcome of `GET /api/share/link/:token`: 404 when no link share has
the token, 403 when the matching share is expired, otherwise the shared
file with the share's role. -/
inductive TokenDecision where
  | allowed (role : Role) (fileId : String)
  | deniedExpired
  | notFound
deriving DecidableEq, Repr

/-- Access resolution of `GET /api/share/link/:token`: `findFirst` share with
`and(eq(share.token, token), eq(share.shareType, "link"))`; 404 if none;
403 if `expiresAt` is set and strictly in the past; else allowed. -/
def resolveByToken (db : DB) (now : Int) (tok : String) : TokenDecision :=
  match db.shares.find? (fun s => s.token == some tok && s.shareType == ShareType.link) with
  | none => .notFound
  | some shareRecord =>
    match shareRecord.expiresAt with
    | some t => if t < now then .deniedExpired else .allowed shareRecord.role shareRecord.fileId
    | none => .allowed shareRecord.role shareRecord.fileId

/-- Error responses of the share routes (each tagged with its HTTP status in
the source). -/
inductive ShareError where
  | unauthenticated
  | emailRequired
  | invalidRole
  | fileNotFound
  | notOwner
  | userNotFound
  | selfShare
  | duplicateShare
  | invalidExpiryDate
deriving DecidableEq, Repr

/-- The `allowedRoles` array validated in `POST /api/share/:fileId/user`. -/
def allowedRoles : List String := ["viewer", "editor"]

/-- Mapping from the request-body role string to the role enum stored by the
database (the insert passes the string through to the enum column). -/
def roleOfString (s : String) : Role :=
  if s == "editor" then .editor
  else if s == "owner" then .owner
  else .viewer

/-- JavaScript truthiness of an optional string, as used by the guards
`if (!userEmail)` and `if (role && ...)`: an empty string counts as absent. -/
def strTruthy (s : Option String) : Option String :=
  match s with
  | some v => if v == "" then none else some v
  | none => none

/-- The expiresAt validation block shared by both share-creation routes:
skip when absent, fail when `parsedDate <= new Date()`, otherwise keep the
parsed date.  `expiresAt` stands for an already-parsed timestamp (the
invalid-date branch of the source is out of scope). -/
def validateExpiry (now : Int) (expiresAt : Option Int) : Except ShareError (Option Int) :=
  match expiresAt with
  | none => .ok none
  | some t => if t ≤ now then .error .invalidExpiryDate else .ok (some t)

/-- The WHERE clause of the `existingShare` duplicate lookup in
`POST /api/share/:fileId/user`: `and(eq(share.fileId, fileId),
eq(share.sharedWithUserId, sharedUser.id), eq(share.shareType, "user"))`.
Note it does not filter on `expiresAt`. -/
def duplicateUserShare (fileId sharedUserId : String) (s : Share) : Bool :=
  s.fileId == fileId && s.sharedWithUserId == some sharedUserId &&
    s.shareType == ShareType.user

/-- The share row inserted by `POST /api/share/:fileId/user`. -/
def insertedUserShare (newShareId fileId sharedUserId uid : String)
    (role : Option String) (expiresAtDate : Option Int) : Share :=
  { id := newShareId, fileId := fileId, shareType := .user,
    sharedWithUserId := some sharedUserId, token := none,
    role := roleOfString (role.getD "viewer"),
    expiresAt := expiresAtDate, createdBy := uid }

/-- The audit row appended by `POST /api/share/:fileId/user`. -/
def shareUserEntry (entryId fileId uid em : String) : ActivityEntry :=
  { id := entryId, fileId := fileId, userId := uid,
    activityType := .share, metadata := some ("Shared with " ++ em) }

/-- Handler `POST /api/share/:fileId/user` (share a file with a user by
email): auth, email required, role validation, file lookup, owner check,
target-user lookup, self-share check, duplicate check, expiry validation,
insert of the share row, audit append.  `newShareId`/`entryId` stand for the
`nanoid()` calls. -/
def shareWithUser (db : DB) (now : Int) (newShareId entryId : String)
    (actor : Option String) (fileId : String)
    (userEmail roleStr : Option String) (expiresAt : Option Int) :
    Except ShareError (Share × DB) :=
  match actor with
  | none => .error .unauthenticated
  | some uid =>
    match strTruthy userEmail with
    | none => .error .emailRequired
    | some em =>
      let role := strTruthy roleStr
      if !(role.all (fun r => allowedRoles.contains r)) then .error .invalidRole
      else
        match db.files.find? (fun f => f.id == fileId) with
        | none => .error .fileNotFound
        | some fileRecord =>
          if fileRecord.ownerId != uid then .error .notOwner
          else
            match db.users.find? (fun u => u.email == em) with
            | none => .error .userNotFound
            | some sharedUser =>
              if sharedUser.id == uid then .error .selfShare
              else
                match db.shares.find? (duplicateUserShare fileId sharedUser.id) with
                | some _ => .error .duplicateShare
                | none =>
                  match validateExpiry now expiresAt with
                  | .error e => .error e
                  | .ok expiresAtDate =>
                    let newShare : Share :=
                      insertedUserShare newShareId fileId sharedUser.id uid
                        role expiresAtDate
                    let entry : ActivityEntry := shareUserEntry entryId fileId uid em
                    .ok (newShare,
                      { db with shares := db.shares ++ [newShare],
                                activity := db.activity ++ [entry] })

/-- The share row inserted by `POST /api/share/:fileId/link`. -/
def insertedLinkShare (newShareId fileId tok uid : String)
    (expiresAtDate : Option Int) : Share :=
  { id := newShareId, fileId := fileId, shareType := .link,
    sharedWithUserId := none, token := some tok,
    role := .viewer, expiresAt := expiresAtDate, createdBy := uid }

/-- Handler `POST /api/share/:fileId/link` (generate a share link): auth,
file lookup, owner check, expiry validation, insert of a link share with
`role: "viewer"` and no `sharedWithUserId`, audit append.  `tok` stands for
the `nanoid(32)` token. -/
def createShareLink (db : DB) (now : Int) (newShareId entryId tok : String)
    (actor : Option String) (fileId : String) (expiresAt : Option Int) :
    Except ShareError (Share × DB) :=
  match actor with
  | none => .error .unauthenticated
  | some uid =>
    match db.files.find? (fun f => f.id == fileId) with
    | none => .error .fileNotFound
    | some fileRecord =>
      if fileRecord.ownerId != uid then .error .notOwner
      else
        match validateExpiry now expiresAt with
        | .error e => .error e
        | .ok expiresAtDate =>
          let newShare : Share :=
            insertedLinkShare newShareId fileId tok uid expiresAtDate
          let entry : ActivityEntry :=
            { id := entryId, fileId := fileId, userId := uid,
              activityType := .share,
              metadata := some "Generated share link" }
          .ok (newShare,
            { db with shares := db.shares ++ [newShare],
                      activity := db.activity ++ [entry] })

/-- Error responses of `DELETE /api/share/:shareId`.  `fileMissing` models
the crash (500) when the share's file relation resolves to nothing, which
the cascade normally rules out. -/
inductive RevokeError where
  | unauthenticated
  | shareNotFound
  | fileMissing
  | notOwner
deriving DecidableEq, Repr

/-- Handler `DELETE /api/share/:shareId` (revoke a share): auth, share
lookup (with its file), owner check on the file, delete of every share row
with that id, audit append of an unshare entry. -/
def revokeShare (db : DB) (entryId : String) (actor : Option String)
    (shareId : String) : Except RevokeError DB :=
  match actor with
  | none => .error .unauthenticated
  | some uid =>
    match db.shares.find? (fun s => s.id == shareId) with
    | none => .error .shareNotFound
    | some shareRecord =>
      match db.files.find? (fun f => f.id == shareRecord.fileId) with
      | none => .error .fileMissing
      | some fileRecord =>
        if fileRecord.ownerId != uid then .error .notOwner
        else
          let entry : ActivityEntry :=
            { id := entryId, fileId := shareRecord.fileId, userId := uid,
              activityType := .unshare,
              metadata := some ("Revoked share " ++ shareId) }
          .ok { db with shares := db.shares.filter (fun s => s.id != shareId),
                        activity := db.activity ++ [entry] }

/-- Error responses of `DELETE /api/files/:id`. -/
inductive DeleteError where
  | unauthenticated
  | fileNotFound
  | notOwner
deriving DecidableEq, Repr

/-- Handler `DELETE /api/files/:id` (delete a file): auth, file lookup,
owner check, blob destroy (external), audit append of the delete entry, and
then `db.delete(file)` — whose ON DELETE CASCADE on `share.file_id` and
`activity_log.file_id` removes every share and activity row of the file,
including the delete entry just appended. -/
def deleteFile (db : DB) (entryId : String) (actor : Option String)
    (fileId : String) : Except DeleteError DB :=
  match actor with
  | none => .error .unauthenticated
  | some uid =>
    match db.files.find? (fun f => f.id == fileId) with
    | none => .error .fileNotFound
    | some fileRecord =>
      if fileRecord.ownerId != uid then .error .notOwner
      else
        let entry : ActivityEntry :=
          { id := entryId, fileId := fileRecord.id, userId := uid,
            activityType := .delete, metadata := none }
        let logged := db.activity ++ [entry]
        .ok { files := db.files.filter (fun f => f.id != fileId),
              users := db.users,
              shares := db.shares.filter (fun s => s.fileId != fileId),
              activity := logged.filter (fun e => e.fileId != fileId) }

/-- The multer file metadata read by the upload handler. -/
structure UploadInput where
  originalname : String
  size : Nat
  mimetype : String
deriving DecidableEq, Repr

/-- Response of `POST /api/files/upload`. -/
inductive UploadResp where
  | created (fileId : String)
  | badRequest
  | unauthenticated
  | serverError
deriving DecidableEq, Repr

/-- Outcome of the upload handler: the HTTP response, the database state,
and whether the blob is still stored in Cloudinary afterwards. -/
structure UploadResult where
  resp : UploadResp
  db : DB
  blobStored : Bool
deriving DecidableEq, Repr

/-- Handler `POST /api/files/upload` with explicit success/failure of its
three fallible steps.  The control flow of the source: a failing Cloudinary
upload is caught by the outer catch (500, nothing persisted).  The inner
try covers the file-row insert AND the `logActivity` call; if either
throws, the catch destroys the Cloudinary blob and rethrows, so the outer
catch answers 500.  In particular a failed audit append after a successful
file-row insert leaves the file row in place, destroys the blob, and
reports failure, not success. -/
def uploadFile (db : DB) (actor : Option String) (input : Option UploadInput)
    (newFileId entryId blobId blobUrl : String) (blobResourceType : Option String)
    (blobUploadOk insertOk auditOk : Bool) : UploadResult :=
  match input with
  | none => ⟨.badRequest, db, false⟩
  | some inp =>
    match actor with
    | none => ⟨.unauthenticated, db, false⟩
    | some uid =>
      if !blobUploadOk then ⟨.serverError, db, false⟩
      else if !insertOk then ⟨.serverError, db, false⟩
      else
        let newFile : FileRec :=
          { id := newFileId, filename := inp.originalname,
            cloudinaryId := blobId, fileUrl := blobUrl, size := inp.size,
            type := inp.mimetype, resourceType := blobResourceType,
            ownerId := uid }
        if !auditOk then
          ⟨.serverError, { db with files := db.files ++ [newFile] }, false⟩
        else
          let entry : ActivityEntry :=
            { id := entryId, fileId := newFileId, userId := uid,
              activityType := .upload, metadata := none }
          ⟨.created newFileId,
            { db with files := db.files ++ [newFile],
                      activity := db.activity ++ [entry] }, true⟩

/-- One state-changing request against the server, with its nondeterministic
inputs (fresh ids, tokens, clock, step outcomes) made explicit. -/
inductive Op where
  | upload (actor : Option String) (input : Option UploadInput)
      (newFileId entryId blobId blobUrl : String) (blobResourceType : Option String)
      (blobUploadOk insertOk auditOk : Bool)
  | shareUser (now : Int) (newShareId entryId : String) (actor : Option String)
      (fileId : String) (userEmail roleStr : Option String) (expiresAt : Option Int)
  | shareLink (now : Int) (newShareId entryId tok : String) (actor : Option String)
      (fileId : String) (expiresAt : Option Int)
  | revoke (entryId : String) (actor : Option String) (shareId : String)
  | removeFile (entryId : String) (actor : Option String) (fileId : String)

/-- The database after one request (an erroring request leaves it unchanged). -/
def applyOp (db : DB) (op : Op) : DB :=
  match op with
  | .upload actor input newFileId entryId blobId blobUrl rt b i a =>
    (uploadFile db actor input newFileId entryId blobId blobUrl rt b i a).db
  | .shareUser now newShareId entryId actor fileId userEmail roleStr expiresAt =>
    match shareWithUser db now newShareId entryId actor fileId userEmail roleStr expiresAt with
    | .ok r => r.2
    | .error _ => db
  | .shareLink now newShareId entryId tok actor fileId expiresAt =>
    match createShareLink db now newShareId entryId tok actor fileId expiresAt with
    | .ok r => r.2
    | .error _ => db
  | .revoke entryId actor shareId =>
    match revokeShare db entryId actor shareId with
    | .ok db2 => db2
    | .error _ => db
  | .removeFile entryId actor fileId =>
    match deleteFile db entryId actor fileId with
    | .ok db2 => db2
    | .error _ => db

/-- The database after a sequence of requests. -/
def runOps (db : DB) (ops : List Op) : DB :=
  ops.foldl applyOp db

/-- Store invariant: no persisted grant carries the owner role (ownership
is derived from file.ownerId, never granted). -/
abbrev roleInv (db : DB) : Prop :=
  ∀ s ∈ db.shares, s.role ≠ .owner

/-- Store invariant: link-kind grants are persisted without a
sharedWithUserId (the link-share insert never sets that column). -/
abbrev linkInv (db : DB) : Prop :=
  ∀ s ∈ db.shares, s.shareType = .link → s.sharedWithUserId = none

/-! Concrete fixtures used by the witness and counterexample theorems. -/

/-- A file owned by user u1. -/
def fOwner : FileRec :=
  { id := "f1", filename := "notes.txt", cloudinaryId := "cl1",
    fileUrl := "https://blob/f1", size := 10, type := "text/plain",
    resourceType := some "raw", ownerId := "u1" }

/-- The owning user. -/
def uAlice : UserRec := { id := "u1", email := "a@x.io", name := "Alice" }

/-- A second user, target of direct shares. -/
def uBob : UserRec := { id := "u2", email := "b@x.io", name := "Bob" }

/-- An unexpired direct share of f1 with u2. -/
def sDirect : Share :=
  { id := "s1", fileId := "f1", shareType := .user,
    sharedWithUserId := some "u2", token := none, role := .viewer,
    expiresAt := none, createdBy := "u1" }

/-- A second direct share of f1 with u2 (duplicate of sDirect), editor role. -/
def sDirectDup : Share :=
  { id := "s2", fileId := "f1", shareType := .user,
    sharedWithUserId := some "u2", token := none, role := .editor,
    expiresAt := none, createdBy := "u1" }

/-- An expired direct share of f1 with u2 (expiresAt 3, evaluated at now 10). -/
def sDirectExpired : Share :=
  { id := "s3", fileId := "f1", shareType := .user,
    sharedWithUserId := some "u2", token := none, role := .viewer,
    expiresAt := some 3, createdBy := "u1" }

/-- A link share of f1 with no expiry. -/
def sLink : Share :=
  { id := "s5", fileId := "f1", shareType := .link,
    sharedWithUserId := none, token := some "tk2", role := .viewer,
    expiresAt := none, createdBy := "u1" }

/-- An expired link share of f1 (expiresAt 3, evaluated at now 10). -/
def sLinkExpired : Share :=
  { id := "s4", fileId := "f1", shareType := .link,
    sharedWithUserId := none, token := some "tk", role := .viewer,
    expiresAt := some 3, createdBy := "u1" }

end NuaFS

namespace NuaFS

/-! Generic lemmas about `List.find?`, which models drizzle's `findFirst`. -/

/-- find? returns the element when it is the unique element satisfying the
filter. -/
theorem find?_eq_some_of_mem_unique {α : Type} {l : List α} {p : α → Bool} {a : α}
    (ha : a ∈ l) (hpa : p a = true)
    (huniq : ∀ x ∈ l, p x = true → x = a) :
    l.find? p = some a := by
  cases h : l.find? p with
  | none => exact absurd hpa (by simpa using List.find?_eq_none.mp h a ha)
  | some b =>
    rw [huniq b (List.mem_of_find?_eq_some h) (List.find?_some h)]

/-- Claim C2: for every file f and every user u with u equal to
f.owningUserId, resolveByUser u f.id returns Allowed(owner), regardless of
the grants in the store (the shares list of db is arbitrary). -/
theorem owner_always_allowed_owner (db : DB) (now : Int) (u fileId : String)
    (f : FileRec)
    (hf : db.files.find? (fun x => x.id == fileId) = some f)
    (hown : f.ownerId = u) :
    resolveByUser db now u fileId = .allowed .owner := by
  unfold resolveByUser
  rw [hf]
  simp [hown]

/-- Witness for C2 at a concrete database: a store holding grants to u2,
including an expired one, still resolves the owner u1 to Allowed(owner). -/
theorem owner_always_allowed_owner_w :
    resolveByUser ⟨[fOwner], [uAlice, uBob], [sDirect, sDirectExpired], []⟩ 10 "u1" "f1"
      = .allowed .owner :=
  owner_always_allowed_owner _ 10 "u1" "f1" fOwner (by decide) (by decide)

/-- Claim C3: a link grant whose expiresAt lies in the past resolves by
token to Denied(expired) — a result distinct from NotFound and from every
Allowed — while a token matching no link grant resolves to NotFound. -/
theorem expired_link_denied_unknown_token_not_found (db : DB) (now : Int)
    (tok : String) (g : Share) (t : Int)
    (hg : g ∈ db.shares) (hk : g.shareType = .link) (htok : g.token = some tok)
    (huniq : ∀ s ∈ db.shares, s.token = some tok → s = g)
    (hexp : g.expiresAt = some t) (hpast : t < now) :
    (resolveByToken db now tok = .deniedExpired ∧
     TokenDecision.deniedExpired ≠ TokenDecision.notFound ∧
     ∀ r fid, TokenDecision.deniedExpired ≠ TokenDecision.allowed r fid) ∧
    ∀ tok2, (∀ s ∈ db.shares, s.shareType = .link → s.token ≠ some tok2) →
      resolveByToken db now tok2 = .notFound := by
  constructor
  · have hfound :
        db.shares.find? (fun s => s.token == some tok && s.shareType == ShareType.link)
          = some g := by
      apply find?_eq_some_of_mem_unique hg
      · simp [htok, hk]
      · intro x hx hpx
        simp only [Bool.and_eq_true, beq_iff_eq] at hpx
        exact huniq x hx hpx.1
    refine ⟨?_, by simp, by simp⟩
    unfold resolveByToken
    rw [hfound]
    simp [hexp, hpast]
  · intro tok2 hnone
    unfold resolveByToken
    have : db.shares.find?
        (fun s => s.token == some tok2 && s.shareType == ShareType.link) = none := by
      rw [List.find?_eq_none]
      intro s hs
      simp only [Bool.and_eq_true, beq_iff_eq, not_and]
      intro hst hty
      exact absurd hst (hnone s hs hty)
    rw [this]

/-- Witness for C3: at now 10 the expired link share (expiresAt 3) resolves
to Denied(expired) and an unknown token to NotFound. -/
theorem expired_link_denied_unknown_token_not_found_w :
    resolveByToken ⟨[fOwner], [uAlice], [sDirect, sLinkExpired], []⟩ 10 "tk"
      = .deniedExpired ∧
    resolveByToken ⟨[fOwner], [uAlice], [sDirect, sLinkExpired], []⟩ 10 "zz"
      = .notFound := by
  have h := expired_link_denied_unknown_token_not_found
    ⟨[fOwner], [uAlice], [sDirect, sLinkExpired], []⟩ 10 "tk" sLinkExpired 3
    (by decide) (by decide) (by decide) (by decide) (by decide) (by decide)
  exact ⟨h.1.1, h.2 "zz" (by decide)⟩

/-- Reduction of the user-share handler once every check before the
duplicate lookup passes: the outcome is decided by the duplicate lookup and
the expiry validation alone. -/
theorem shareWithUser_checksPassed (db : DB) (now : Int) (nid eid : String)
    (uid fileId em : String) (roleStr : Option String) (expiresAt : Option Int)
    (f : FileRec) (tu : UserRec)
    (hem : em ≠ "")
    (hrole : (strTruthy roleStr).all (fun r => allowedRoles.contains r) = true)
    (hf : db.files.find? (fun x => x.id == fileId) = some f)
    (hown : f.ownerId = uid)
    (htu : db.users.find? (fun x => x.email == em) = some tu)
    (hself : tu.id ≠ uid) :
    shareWithUser db now nid eid (some uid) fileId (some em) roleStr expiresAt =
      match db.shares.find? (duplicateUserShare fileId tu.id) with
      | some _ => .error .duplicateShare
      | none =>
        match validateExpiry now expiresAt with
        | .error e => .error e
        | .ok expD =>
          .ok (insertedUserShare nid fileId tu.id uid (strTruthy roleStr) expD,
            { db with
                shares := db.shares ++
                  [insertedUserShare nid fileId tu.id uid (strTruthy roleStr) expD],
                activity := db.activity ++ [shareUserEntry eid fileId uid em] }) := by
  have hstr : strTruthy (some em) = some em := by
    unfold strTruthy
    simp [hem]
  have hbeqself : (tu.id == uid) = false := beq_eq_false_iff_ne.mpr hself
  unfold shareWithUser
  dsimp only
  rw [hstr]
  dsimp only
  rw [hrole]
  simp only [Bool.not_true, Bool.false_eq_true, if_false]
  rw [hf]
  dsimp only
  simp only [hown, bne_self_eq_false, Bool.false_eq_true, if_false]
  rw [htu]
  dsimp only
  simp only [hbeqself, Bool.false_eq_true, if_false]

/-- Reduction of the revoke handler when the share exists and the requester
owns its file. -/
theorem revokeShare_owner_ok (db : DB) (eid uid shareId : String)
    (g : Share) (f : FileRec)
    (hfind : db.shares.find? (fun s => s.id == shareId) = some g)
    (hfile : db.files.find? (fun x => x.id == g.fileId) = some f)
    (hown : f.ownerId = uid) :
    revokeShare db eid (some uid) shareId =
      .ok { db with shares := db.shares.filter (fun s => s.id != shareId),
                    activity := db.activity ++
                      [{ id := eid, fileId := g.fileId, userId := uid,
                         activityType := .unshare,
                         metadata := some ("Revoked share " ++ shareId) }] } := by
  unfold revokeShare
  dsimp only
  rw [hfind]
  dsimp only
  rw [hfile]
  simp [hown]

/-- Validated role strings never map to the owner role. -/
theorem roleOfString_allowed (r : String) (h : allowedRoles.contains r = true) :
    roleOfString r ≠ .owner := by
  simp [allowedRoles] at h
  rcases h with h | h <;> subst h <;> decide

/-- The share row inserted by the user-share handler never carries the
owner role once the request role passed validation. -/
theorem insertedUserShare_role_ok (nid fileId tuId uid : String)
    (role : Option String) (expD : Option Int)
    (hrole : role.all (fun r => allowedRoles.contains r) = true) :
    (insertedUserShare nid fileId tuId uid role expD).role ≠ .owner := by
  unfold insertedUserShare
  cases role with
  | none =>
    show roleOfString "viewer" ≠ Role.owner
    decide
  | some r =>
    simp only [Option.all_some] at hrole
    show roleOfString r ≠ Role.owner
    exact roleOfString_allowed r hrole

/-- Shape of a successful user-share request: it appends exactly one share
row, of kind user with a validated (non-owner) role. -/
theorem shareWithUser_ok_shape (db : DB) (now : Int) (nid eid : String)
    (actor : Option String) (fileId : String) (userEmail roleStr : Option String)
    (expiresAt : Option Int) (ns : Share) (db2 : DB)
    (h : shareWithUser db now nid eid actor fileId userEmail roleStr expiresAt
      = .ok (ns, db2)) :
    db2.shares = db.shares ++ [ns] ∧ ns.shareType = .user ∧ ns.role ≠ .owner := by
  unfold shareWithUser at h
  dsimp only at h
  repeat' split at h
  any_goals exact Except.noConfusion h
  simp only [Except.ok.injEq, Prod.mk.injEq] at h
  obtain ⟨hns, hdb2⟩ := h
  subst hns hdb2
  refine ⟨rfl, rfl, ?_⟩
  apply insertedUserShare_role_ok
  simp_all

/-- Shape of a successful link-share request: it appends exactly one share
row, of kind link, role viewer, with no sharedWithUserId. -/
theorem createShareLink_ok_shape (db : DB) (now : Int) (nid eid tok : String)
    (actor : Option String) (fileId : String) (expiresAt : Option Int)
    (ns : Share) (db2 : DB)
    (h : createShareLink db now nid eid tok actor fileId expiresAt
      = .ok (ns, db2)) :
    db2.shares = db.shares ++ [ns] ∧ ns.shareType = .link ∧
      ns.role = .viewer ∧ ns.sharedWithUserId = none := by
  unfold createShareLink at h
  dsimp only at h
  repeat' split at h
  any_goals exact Except.noConfusion h
  simp only [Except.ok.injEq, Prod.mk.injEq] at h
  obtain ⟨hns, hdb2⟩ := h
  subst hns hdb2
  exact ⟨rfl, rfl, rfl, rfl⟩

/-- A successful revoke only removes share rows. -/
theorem revokeShare_shares_sub (db : DB) (eid : String) (actor : Option String)
    (shareId : String) (db2 : DB)
    (h : revokeShare db eid actor shareId = .ok db2) :
    ∀ s ∈ db2.shares, s ∈ db.shares := by
  unfold revokeShare at h
  repeat' split at h
  any_goals exact Except.noConfusion h
  simp only [Except.ok.injEq] at h
  subst h
  intro s hs
  exact (List.mem_filter.mp hs).1

/-- A successful file delete only removes share rows (the cascade). -/
theorem deleteFile_shares_sub (db : DB) (eid : String) (actor : Option String)
    (fileId : String) (db2 : DB)
    (h : deleteFile db eid actor fileId = .ok db2) :
    ∀ s ∈ db2.shares, s ∈ db.shares := by
  unfold deleteFile at h
  repeat' split at h
  any_goals exact Except.noConfusion h
  simp only [Except.ok.injEq] at h
  subst h
  intro s hs
  exact (List.mem_filter.mp hs).1

/-- The upload handler never touches the share table. -/
theorem uploadFile_shares_eq (db : DB) (actor : Option String)
    (input : Option UploadInput) (nfid eid bid burl : String)
    (rt : Option String) (b i a : Bool) :
    (uploadFile db actor input nfid eid bid burl rt b i a).db.shares
      = db.shares := by
  unfold uploadFile
  repeat' split
  all_goals rfl

/-- One request preserves the no-owner-role invariant of the share store. -/
theorem applyOp_preserves_roleInv (db : DB) (op : Op) (h : roleInv db) :
    roleInv (applyOp db op) := by
  cases op with
  | upload actor input nfid eid bid burl rt b i a =>
    intro s hs
    rw [applyOp, uploadFile_shares_eq] at hs
    exact h s hs
  | shareUser now nid eid actor fileId userEmail roleStr expiresAt =>
    intro s hs
    rw [applyOp] at hs
    cases hr : shareWithUser db now nid eid actor fileId userEmail roleStr expiresAt with
    | error e =>
      rw [hr] at hs
      exact h s hs
    | ok r =>
      rw [hr] at hs
      obtain ⟨hsh, _, hrole⟩ := shareWithUser_ok_shape db now nid eid actor
        fileId userEmail roleStr expiresAt r.1 r.2 (by rw [hr])
      rw [hsh] at hs
      rcases List.mem_append.mp hs with hmem | hmem
      · exact h s hmem
      · rw [List.mem_singleton.mp hmem]
        exact hrole
  | shareLink now nid eid tok actor fileId expiresAt =>
    intro s hs
    rw [applyOp] at hs
    cases hr : createShareLink db now nid eid tok actor fileId expiresAt with
    | error e =>
      rw [hr] at hs
      exact h s hs
    | ok r =>
      rw [hr] at hs
      obtain ⟨hsh, _, hrole, _⟩ := createShareLink_ok_shape db now nid eid tok
        actor fileId expiresAt r.1 r.2 (by rw [hr])
      rw [hsh] at hs
      rcases List.mem_append.mp hs with hmem | hmem
      · exact h s hmem
      · rw [List.mem_singleton.mp hmem, hrole]
        decide
  | revoke eid actor shareId =>
    intro s hs
    rw [applyOp] at hs
    cases hr : revokeShare db eid actor shareId with
    | error e =>
      rw [hr] at hs
      exact h s hs
    | ok db2 =>
      rw [hr] at hs
      exact h s (revokeShare_shares_sub db eid actor shareId db2 hr s hs)
  | removeFile eid actor fileId =>
    intro s hs
    rw [applyOp] at hs
    cases hr : deleteFile db eid actor fileId with
    | error e =>
      rw [hr] at hs
      exact h s hs
    | ok db2 =>
      rw [hr] at hs
      exact h s (deleteFile_shares_sub db eid actor fileId db2 hr s hs)

/-- One request preserves the links-carry-no-user invariant. -/
theorem applyOp_preserves_linkInv (db : DB) (op : Op) (h : linkInv db) :
    linkInv (applyOp db op) := by
  cases op with
  | upload actor input nfid eid bid burl rt b i a =>
    intro s hs
    rw [applyOp, uploadFile_shares_eq] at hs
    exact h s hs
  | shareUser now nid eid actor fileId userEmail roleStr expiresAt =>
    intro s hs
    rw [applyOp] at hs
    cases hr : shareWithUser db now nid eid actor fileId userEmail roleStr expiresAt with
    | error e =>
      rw [hr] at hs
      exact h s hs
    | ok r =>
      rw [hr] at hs
      obtain ⟨hsh, hty, _⟩ := shareWithUser_ok_shape db now nid eid actor
        fileId userEmail roleStr expiresAt r.1 r.2 (by rw [hr])
      rw [hsh] at hs
      rcases List.mem_append.mp hs with hmem | hmem
      · exact h s hmem
      · rw [List.mem_singleton.mp hmem]
        rw [hty]
        intro hlink
        cases hlink
  | shareLink now nid eid tok actor fileId expiresAt =>
    intro s hs
    rw [applyOp] at hs
    cases hr : createShareLink db now nid eid tok actor fileId expiresAt with
    | error e =>
      rw [hr] at hs
      exact h s hs
    | ok r =>
      rw [hr] at hs
      obtain ⟨hsh, _, _, hnone⟩ := createShareLink_ok_shape db now nid eid tok
        actor fileId expiresAt r.1 r.2 (by rw [hr])
      rw [hsh] at hs
      rcases List.mem_append.mp hs with hmem | hmem
      · exact h s hmem
      · rw [List.mem_singleton.mp hmem]
        intro _
        exact hnone
  | revoke eid actor shareId =>
    intro s hs
    rw [applyOp] at hs
    cases hr : revokeShare db eid actor shareId with
    | error e =>
      rw [hr] at hs
      exact h s hs
    | ok db2 =>
      rw [hr] at hs
      exact h s (revokeShare_shares_sub db eid actor shareId db2 hr s hs)
  | removeFile eid actor fileId =>
    intro s hs
    rw [applyOp] at hs
    cases hr : deleteFile db eid actor fileId with
    | error e =>
      rw [hr] at hs
      exact h s hs
    | ok db2 =>
      rw [hr] at hs
      exact h s (deleteFile_shares_sub db eid actor fileId db2 hr s hs)

/-- Any sequence of requests preserves the no-owner-role invariant. -/
theorem runOps_preserves_roleInv (db : DB) (ops : List Op) (h : roleInv db) :
    roleInv (runOps db ops) := by
  induction ops generalizing db with
  | nil => exact h
  | cons op rest ih =>
    exact ih (applyOp db op) (applyOp_preserves_roleInv db op h)

/-- Any sequence of requests preserves the links-carry-no-user invariant. -/
theorem runOps_preserves_linkInv (db : DB) (ops : List Op) (h : linkInv db) :
    linkInv (runOps db ops) := by
  induction ops generalizing db with
  | nil => exact h
  | cons op rest ih =>
    exact ih (applyOp db op) (applyOp_preserves_linkInv db op h)

/-- Claim C1: an active, non-expired direct-user grant g makes
resolveByUser(g.target, g.fileId) return Allowed(g.role); and after
revokeGrant(g.id, owner) succeeds, the same call returns Denied.  The
grant-uniqueness invariant of the store is taken as a hypothesis (huniq,
hid); target is not the owner (a self-grant is rejected at creation). -/
theorem direct_grant_allows_then_revoke_denies (db : DB) (now : Int)
    (u fileId entryId : String) (f : FileRec) (g : Share)
    (hf : db.files.find? (fun x => x.id == fileId) = some f)
    (hown : f.ownerId ≠ u)
    (hg : g ∈ db.shares)
    (hgf : g.fileId = fileId)
    (hgu : g.sharedWithUserId = some u)
    (hgk : g.shareType = .user)
    (hact : shareNotExpired now g = true)
    (huniq : ∀ s ∈ db.shares, userAccessShare now u fileId s = true → s = g)
    (hid : ∀ s ∈ db.shares, s.id = g.id → s = g) :
    resolveByUser db now u fileId = .allowed g.role ∧
    ∃ db2, revokeShare db entryId (some f.ownerId) g.id = .ok db2 ∧
      resolveByUser db2 now u fileId = .denied := by
  have hfid : f.id = fileId := by simpa using List.find?_some hf
  have hbeq : (f.ownerId == u) = false := beq_eq_false_iff_ne.mpr hown
  have hfound : db.shares.find? (userAccessShare now u f.id) = some g := by
    rw [hfid]
    apply find?_eq_some_of_mem_unique hg
    · simp [userAccessShare, hgf, hgu, hact]
    · exact huniq
  constructor
  · unfold resolveByUser
    rw [hf]
    simp [hbeq, hfound]
  · have hfindid : db.shares.find? (fun s => s.id == g.id) = some g := by
      apply find?_eq_some_of_mem_unique hg
      · simp
      · intro x hx hpx
        exact hid x hx (by simpa using hpx)
    refine ⟨{ db with
        shares := db.shares.filter (fun s => s.id != g.id),
        activity := db.activity ++
          [{ id := entryId, fileId := g.fileId, userId := f.ownerId,
             activityType := .unshare,
             metadata := some ("Revoked share " ++ g.id) }] }, ?_, ?_⟩
    · unfold revokeShare
      dsimp only
      rw [hfindid]
      dsimp only
      rw [hgf, hf]
      simp
    · unfold resolveByUser
      dsimp only
      rw [hf]
      simp only [hbeq, Bool.false_eq_true, if_false]
      have hnone :
          (db.shares.filter (fun s => s.id != g.id)).find?
            (userAccessShare now u f.id) = none := by
        rw [List.find?_eq_none]
        intro s hs
        have hmem := (List.mem_filter.mp hs).1
        have hkeep := (List.mem_filter.mp hs).2
        intro hps
        have hsg : s = g := huniq s hmem (by rwa [hfid] at hps)
        rw [hsg] at hkeep
        simp at hkeep
      rw [hnone]

/-- Witness for C1: with one active direct grant of f1 to u2, u2 resolves to
Allowed(viewer); revoking that grant as u1 succeeds and u2 then resolves
to Denied. -/
theorem direct_grant_allows_then_revoke_denies_w :
    resolveByUser ⟨[fOwner], [uAlice, uBob], [sDirect], []⟩ 0 "u2" "f1"
      = .allowed sDirect.role ∧
    ∃ db2, revokeShare ⟨[fOwner], [uAlice, uBob], [sDirect], []⟩ "e1"
        (some fOwner.ownerId) sDirect.id = .ok db2 ∧
      resolveByUser db2 0 "u2" "f1" = .denied :=
  direct_grant_allows_then_revoke_denies _ 0 "u2" "f1" "e1" fOwner sDirect
    (by decide) (by decide) (by decide) (by decide) (by decide) (by decide)
    (by decide) (by decide) (by decide)

/-- Counterexample to claim C4: a store whose only direct-user grant for
(f1, u2) is expired (expiresAt 3, now 10, so it is inactive) still makes
the user-share handler answer DuplicateGrant, although the claim says an
expired grant is treated as absent and does not block a new grant. -/
theorem expired_grant_still_blocks_cex :
    shareNotExpired 10 sDirectExpired = false ∧
    shareWithUser ⟨[fOwner], [uAlice, uBob], [sDirectExpired], []⟩ 10 "s9" "e9"
      (some "u1") "f1" (some "b@x.io") none none = .error .duplicateShare :=
  ⟨rfl, rfl⟩

/-- Claim C4 as amended: once the earlier checks pass, the user-share
handler fails with DuplicateGrant exactly when any direct-user grant for
(fileId, target) exists in the store, active or expired (the duplicate
lookup does not filter on expiry); and after revoking that grant, a new
grant for the same pair succeeds. -/
theorem duplicate_iff_any_existing_grant (db : DB) (now : Int)
    (nid eid eid2 : String) (uid fileId em : String)
    (roleStr : Option String) (expiresAt : Option Int)
    (f : FileRec) (tu : UserRec) (expD : Option Int)
    (hem : em ≠ "")
    (hrole : (strTruthy roleStr).all (fun r => allowedRoles.contains r) = true)
    (hf : db.files.find? (fun x => x.id == fileId) = some f)
    (hown : f.ownerId = uid)
    (htu : db.users.find? (fun x => x.email == em) = some tu)
    (hself : tu.id ≠ uid)
    (hexp : validateExpiry now expiresAt = .ok expD) :
    (shareWithUser db now nid eid (some uid) fileId (some em) roleStr expiresAt
        = .error .duplicateShare ↔
      ∃ s ∈ db.shares, duplicateUserShare fileId tu.id s = true) ∧
    ∀ g ∈ db.shares, duplicateUserShare fileId tu.id g = true →
      (∀ s ∈ db.shares, duplicateUserShare fileId tu.id s = true → s = g) →
      (∀ s ∈ db.shares, s.id = g.id → s = g) →
      ∃ db2 r, revokeShare db eid2 (some uid) g.id = .ok db2 ∧
        shareWithUser db2 now nid eid (some uid) fileId (some em) roleStr expiresAt
          = .ok r := by
  have heval := shareWithUser_checksPassed db now nid eid uid fileId em roleStr
    expiresAt f tu hem hrole hf hown htu hself
  constructor
  · rw [heval]
    cases hdup : db.shares.find? (duplicateUserShare fileId tu.id) with
    | some s =>
      simp only [true_iff]
      exact ⟨s, List.mem_of_find?_eq_some hdup, List.find?_some hdup⟩
    | none =>
      constructor
      · intro h
        rw [hexp] at h
        exact absurd h (by simp)
      · intro ⟨s, hs, hps⟩
        exact absurd hps (by simpa using List.find?_eq_none.mp hdup s hs)
  · intro g hg hpg huniq hid
    have hgfid : g.fileId = fileId := by
      have := hpg
      unfold duplicateUserShare at this
      simp only [Bool.and_eq_true, beq_iff_eq] at this
      exact this.1.1
    have hfindid : db.shares.find? (fun s => s.id == g.id) = some g := by
      apply find?_eq_some_of_mem_unique hg
      · simp
      · intro x hx hpx
        exact hid x hx (by simpa using hpx)
    have hfile2 : db.files.find? (fun x => x.id == g.fileId) = some f := by
      rw [hgfid]
      exact hf
    let db2 : DB :=
      { db with shares := db.shares.filter (fun s => s.id != g.id),
                activity := db.activity ++
                  [{ id := eid2, fileId := g.fileId, userId := uid,
                     activityType := .unshare,
                     metadata := some ("Revoked share " ++ g.id) }] }
    have heval2 := shareWithUser_checksPassed db2
      now nid eid uid fileId em roleStr expiresAt f tu
      hem hrole hf hown htu hself
    have hnone :
        db2.shares.find? (duplicateUserShare fileId tu.id) = none := by
      rw [List.find?_eq_none]
      intro s hs hps
      have hmem := (List.mem_filter.mp hs).1
      have hkeep := (List.mem_filter.mp hs).2
      rw [huniq s hmem hps] at hkeep
      simp at hkeep
    refine ⟨db2,
      (insertedUserShare nid fileId tu.id uid (strTruthy roleStr) expD,
        { db2 with
            shares := db2.shares ++
              [insertedUserShare nid fileId tu.id uid (strTruthy roleStr) expD],
            activity := db2.activity ++ [shareUserEntry eid fileId uid em] }),
      revokeShare_owner_ok db eid2 uid g.id g f hfindid hfile2 hown, ?_⟩
    rw [heval2, hnone, hexp]

/-- Witness for the amended C4 at a concrete store: the expired grant
blocks a new direct share of f1 with u2, and after revoking it the same
share succeeds. -/
theorem duplicate_iff_any_existing_grant_w :
    shareWithUser ⟨[fOwner], [uAlice, uBob], [sDirectExpired], []⟩ 10 "s9" "e9"
      (some "u1") "f1" (some "b@x.io") none none = .error .duplicateShare ∧
    ∃ db2 r, revokeShare ⟨[fOwner], [uAlice, uBob], [sDirectExpired], []⟩ "e8"
        (some "u1") sDirectExpired.id = .ok db2 ∧
      shareWithUser db2 10 "s9" "e9" (some "u1") "f1" (some "b@x.io") none none
        = .ok r := by
  have h := duplicate_iff_any_existing_grant
    ⟨[fOwner], [uAlice, uBob], [sDirectExpired], []⟩ 10 "s9" "e9" "e8"
    "u1" "f1" "b@x.io" none none fOwner uBob none
    (by decide) (by decide) (by decide) (by decide) (by decide) (by decide)
    rfl
  exact ⟨h.1.mpr ⟨sDirectExpired, by decide, by decide⟩,
    h.2 sDirectExpired (by decide) (by decide) (by decide) (by decide)⟩

/-- Counterexample to claim C5: with two distinct active direct-user grants
for (f1, u2) in the store, resolveByUser answers Allowed(viewer) — the role
of the first grant — not Denied as the claim requires. -/
theorem duplicate_active_grants_not_denied_cex :
    shareNotExpired 0 sDirect = true ∧ shareNotExpired 0 sDirectDup = true ∧
    sDirect ≠ sDirectDup ∧
    resolveByUser ⟨[fOwner], [uAlice, uBob], [sDirect, sDirectDup], []⟩ 0 "u2" "f1"
      = .allowed .viewer ∧
    resolveByUser ⟨[fOwner], [uAlice, uBob], [sDirect, sDirectDup], []⟩ 0 "u2" "f1"
      ≠ .denied := by
  decide

/-- Claim C5 as amended: when several active direct-user grants exist for
(fileId, userId), resolveByUser performs no integrity check: it returns
Allowed with the role of the first matching grant in store order (g below,
with a second matching grant g2 further down the list), never Denied. -/
theorem duplicate_grants_first_match_wins (db : DB) (now : Int)
    (u fileId : String) (f : FileRec) (l1 l2 : List Share) (g g2 : Share)
    (hf : db.files.find? (fun x => x.id == fileId) = some f)
    (hown : f.ownerId ≠ u)
    (hsplit : db.shares = l1 ++ g :: l2)
    (hl1 : ∀ s ∈ l1, userAccessShare now u fileId s = false)
    (hpg : userAccessShare now u fileId g = true)
    (hg2 : g2 ∈ l2) (hpg2 : userAccessShare now u fileId g2 = true)
    (hne : g2 ≠ g) :
    resolveByUser db now u fileId = .allowed g.role ∧
    resolveByUser db now u fileId ≠ .denied := by
  have hfid : f.id = fileId := by simpa using List.find?_some hf
  have hbeq : (f.ownerId == u) = false := beq_eq_false_iff_ne.mpr hown
  have hfind : db.shares.find? (userAccessShare now u f.id) = some g := by
    rw [hfid, hsplit, List.find?_append]
    have h1 : l1.find? (userAccessShare now u fileId) = none := by
      rw [List.find?_eq_none]
      intro s hs
      simp [hl1 s hs]
    rw [h1, List.find?_cons_of_pos _ hpg]
    rfl
  have hres : resolveByUser db now u fileId = .allowed g.role := by
    unfold resolveByUser
    rw [hf]
    simp [hbeq, hfind]
  exact ⟨hres, by rw [hres]; simp⟩

/-- Witness for the amended C5: two active grants for (f1, u2) — viewer
first, editor second — resolve to Allowed(viewer). -/
theorem duplicate_grants_first_match_wins_w :
    resolveByUser ⟨[fOwner], [uAlice, uBob], [sDirect, sDirectDup], []⟩ 0 "u2" "f1"
      = .allowed sDirect.role ∧
    resolveByUser ⟨[fOwner], [uAlice, uBob], [sDirect, sDirectDup], []⟩ 0 "u2" "f1"
      ≠ .denied :=
  duplicate_grants_first_match_wins _ 0 "u2" "f1" fOwner [] [sDirectDup]
    sDirect sDirectDup (by decide) (by decide) rfl (by decide) (by decide)
    (by decide) (by decide) (by decide)

/-- Counterexample to claim C6: in the upload handler a failed audit append
after a successful file-row insert falls into the catch block, which
destroys the Cloudinary blob and rethrows, so the request answers 500 —
not success as the claim requires (the file row does stay). -/
theorem upload_audit_failure_not_success_cex :
    uploadFile ⟨[], [uAlice], [], []⟩ (some "u1")
        (some ⟨"doc.pdf", 5, "application/pdf"⟩)
        "f9" "e9" "cl9" "https://blob/f9" (some "raw") true true false
      = ⟨.serverError,
         ⟨[⟨"f9", "doc.pdf", "cl9", "https://blob/f9", 5, "application/pdf",
            some "raw", "u1"⟩], [uAlice], [], []⟩,
         false⟩ :=
  rfl

/-- Claim C6 as amended: when the blob upload and the file-row insert
succeed but the audit append fails, the upload handler keeps the inserted
file row (the database change is not reversed) but destroys the uploaded
blob and reports failure (500) to the caller, not success; no audit entry
is written. -/
theorem upload_audit_failure_keeps_row_reports_error (db : DB) (uid : String)
    (inp : UploadInput) (nfid eid bid burl : String) (rt : Option String) :
    uploadFile db (some uid) (some inp) nfid eid bid burl rt true true false =
      ⟨.serverError,
       { db with files := db.files ++
           [{ id := nfid, filename := inp.originalname, cloudinaryId := bid,
              fileUrl := burl, size := inp.size, type := inp.mimetype,
              resourceType := rt, ownerId := uid }] },
       false⟩ :=
  rfl

/-- Shape of the expiry-validation error: the only error it ever produces
is InvalidExpiry. -/
theorem validateExpiry_error_shape (now : Int) (x : Option Int) (e : ShareError)
    (h : validateExpiry now x = .error e) : e = .invalidExpiryDate := by
  cases x with
  | none => simp [validateExpiry] at h
  | some t =>
    by_cases ht : t ≤ now
    · simp [validateExpiry, ht] at h
      exact h.symm
    · simp [validateExpiry, ht] at h

/-- The expiry validation fails exactly when a timestamp is supplied and it
is not strictly in the future. -/
theorem validateExpiry_error_iff (now : Int) (x : Option Int) :
    validateExpiry now x = .error .invalidExpiryDate ↔
      ∃ t, x = some t ∧ t ≤ now := by
  cases x with
  | none => simp [validateExpiry]
  | some t =>
    by_cases ht : t ≤ now
    · simp [validateExpiry, ht]
    · simp [validateExpiry, ht]

/-- Reduction of the link-share handler once the file exists and the actor
owns it: the outcome is decided by the expiry validation alone. -/
theorem createShareLink_checksPassed (db : DB) (now : Int)
    (nid eid tok uid fileId : String) (expiresAt : Option Int) (f : FileRec)
    (hf : db.files.find? (fun x => x.id == fileId) = some f)
    (hown : f.ownerId = uid) :
    createShareLink db now nid eid tok (some uid) fileId expiresAt =
      match validateExpiry now expiresAt with
      | .error e => .error e
      | .ok expD =>
        .ok (insertedLinkShare nid fileId tok uid expD,
          { db with
              shares := db.shares ++ [insertedLinkShare nid fileId tok uid expD],
              activity := db.activity ++
                [{ id := eid, fileId := fileId, userId := uid,
                   activityType := .share,
                   metadata := some "Generated share link" }] }) := by
  unfold createShareLink
  dsimp only
  rw [hf]
  dsimp only
  simp only [hown, bne_self_eq_false, Bool.false_eq_true, if_false]

/-- Claim C7: with every earlier check passing, both share-creation
handlers fail with InvalidExpiry exactly when expiresAt is supplied and is
not strictly in the future (expiresAt less than or equal to now); with
expiresAt absent or strictly in the future the expiry check passes. -/
theorem invalid_expiry_exactly_when_not_future (db : DB) (now : Int)
    (nid eid nid2 eid2 tok : String) (uid fileId em : String)
    (roleStr : Option String) (expiresAt : Option Int)
    (f : FileRec) (tu : UserRec)
    (hem : em ≠ "")
    (hrole : (strTruthy roleStr).all (fun r => allowedRoles.contains r) = true)
    (hf : db.files.find? (fun x => x.id == fileId) = some f)
    (hown : f.ownerId = uid)
    (htu : db.users.find? (fun x => x.email == em) = some tu)
    (hself : tu.id ≠ uid)
    (hnodup : db.shares.find? (duplicateUserShare fileId tu.id) = none) :
    (shareWithUser db now nid eid (some uid) fileId (some em) roleStr expiresAt
        = .error .invalidExpiryDate ↔ ∃ t, expiresAt = some t ∧ t ≤ now) ∧
    (createShareLink db now nid2 eid2 tok (some uid) fileId expiresAt
        = .error .invalidExpiryDate ↔ ∃ t, expiresAt = some t ∧ t ≤ now) := by
  have heval := shareWithUser_checksPassed db now nid eid uid fileId em roleStr
    expiresAt f tu hem hrole hf hown htu hself
  have hlink := createShareLink_checksPassed db now nid2 eid2 tok uid fileId
    expiresAt f hf hown
  constructor
  · rw [heval]
    simp only [hnodup]
    cases hv : validateExpiry now expiresAt with
    | error e =>
      have he := validateExpiry_error_shape now expiresAt e hv
      subst he
      simp only [true_iff]
      exact (validateExpiry_error_iff now expiresAt).mp hv
    | ok d =>
      constructor
      · intro h
        simp at h
      · intro hex
        have := (validateExpiry_error_iff now expiresAt).mpr hex
        rw [hv] at this
        exact absurd this (by simp)
  · rw [hlink]
    cases hv : validateExpiry now expiresAt with
    | error e =>
      have he := validateExpiry_error_shape now expiresAt e hv
      subst he
      simp only [true_iff]
      exact (validateExpiry_error_iff now expiresAt).mp hv
    | ok d =>
      constructor
      · intro h
        simp at h
      · intro hex
        have := (validateExpiry_error_iff now expiresAt).mpr hex
        rw [hv] at this
        exact absurd this (by simp)

/-- Witness for C7: at now 10, sharing f1 with expiresAt 5 (in the past)
fails with InvalidExpiry on both the direct-share and the link-share
handler. -/
theorem invalid_expiry_exactly_when_not_future_w :
    shareWithUser ⟨[fOwner], [uAlice, uBob], [], []⟩ 10 "s9" "e9" (some "u1")
        "f1" (some "b@x.io") none (some 5) = .error .invalidExpiryDate ∧
    createShareLink ⟨[fOwner], [uAlice, uBob], [], []⟩ 10 "s8" "e8" "tk9"
        (some "u1") "f1" (some 5) = .error .invalidExpiryDate := by
  have h := invalid_expiry_exactly_when_not_future
    ⟨[fOwner], [uAlice, uBob], [], []⟩ 10 "s9" "e9" "s8" "e8" "tk9"
    "u1" "f1" "b@x.io" none (some 5) fOwner uBob
    (by decide) (by decide) (by decide) (by decide) (by decide) (by decide)
    (by decide)
  exact ⟨h.1.mpr ⟨5, rfl, by decide⟩, h.2.mpr ⟨5, rfl, by decide⟩⟩

/-- Claim C8: no grant in the store ever carries the owner role: the direct
handler rejects any request role outside viewer/editor with InvalidRole,
the link handler only persists viewer, and the no-owner-role invariant is
preserved by every sequence of requests. -/
theorem grants_never_carry_owner_role (db : DB) (ops : List Op) :
    (∀ (now : Int) (nid eid uid fileId em r : String) (expiresAt : Option Int),
      em ≠ "" →
      (strTruthy (some r)).all (fun x => allowedRoles.contains x) = false →
      shareWithUser db now nid eid (some uid) fileId (some em) (some r) expiresAt
        = .error .invalidRole) ∧
    (∀ (now : Int) (nid eid tok : String) (actor : Option String)
        (fileId : String) (expiresAt : Option Int) (ns : Share) (db2 : DB),
      createShareLink db now nid eid tok actor fileId expiresAt = .ok (ns, db2) →
      ns.role = .viewer) ∧
    (roleInv db → roleInv (runOps db ops)) := by
  refine ⟨?_, ?_, runOps_preserves_roleInv db ops⟩
  · intro now nid eid uid fileId em r expiresAt hem hbad
    have hstr : strTruthy (some em) = some em := by
      unfold strTruthy
      simp [hem]
    unfold shareWithUser
    dsimp only
    rw [hstr]
    dsimp only
    rw [hbad]
    rfl
  · intro now nid eid tok actor fileId expiresAt ns db2 h
    exact (createShareLink_ok_shape db now nid eid tok actor fileId expiresAt
      ns db2 h).2.2.1

/-- Witness for C8: sharing with role owner is rejected, and after a
sequence of requests — direct share as editor, link share, revoke — every
stored grant still has a non-owner role. -/
theorem grants_never_carry_owner_role_w :
    shareWithUser ⟨[fOwner], [uAlice, uBob], [], []⟩ 0 "s9" "e9" (some "u1")
        "f1" (some "b@x.io") (some "owner") none = .error .invalidRole ∧
    roleInv (runOps ⟨[fOwner], [uAlice, uBob], [], []⟩
      [Op.shareUser 0 "s1" "e1" (some "u1") "f1" (some "b@x.io") (some "editor") none,
       Op.shareLink 0 "s2" "e2" "tk" (some "u1") "f1" none,
       Op.revoke "e3" (some "u1") "s1"]) := by
  have h := grants_never_carry_owner_role ⟨[fOwner], [uAlice, uBob], [], []⟩
    [Op.shareUser 0 "s1" "e1" (some "u1") "f1" (some "b@x.io") (some "editor") none,
     Op.shareLink 0 "s2" "e2" "tk" (some "u1") "f1" none,
     Op.revoke "e3" (some "u1") "s1"]
  exact ⟨h.1 0 "s9" "e9" "u1" "f1" "b@x.io" "owner" none (by decide) (by decide),
    h.2.2 (by decide)⟩

/-- Claim C9: link grants never contribute to resolveByUser: the invariant
that link shares carry no sharedWithUserId is preserved by every request
sequence, and under it a non-owner Allowed decision is always produced by
an active direct-user grant naming the user, whose role is the decision's
role. -/
theorem link_grants_never_grant_user_access (db : DB) (ops : List Op) :
    (linkInv db → linkInv (runOps db ops)) ∧
    (∀ (now : Int) (u fileId : String) (f : FileRec) (r : Role),
      linkInv db →
      db.files.find? (fun x => x.id == fileId) = some f →
      f.ownerId ≠ u →
      resolveByUser db now u fileId = .allowed r →
      ∃ s ∈ db.shares, s.shareType = .user ∧ s.sharedWithUserId = some u ∧
        shareNotExpired now s = true ∧ s.role = r) := by
  refine ⟨runOps_preserves_linkInv db ops, ?_⟩
  intro now u fileId f r hinv hf hown hres
  have hbeq : (f.ownerId == u) = false := beq_eq_false_iff_ne.mpr hown
  unfold resolveByUser at hres
  rw [hf] at hres
  simp only [hbeq, Bool.false_eq_true, if_false] at hres
  cases hfind : db.shares.find? (userAccessShare now u f.id) with
  | none =>
    rw [hfind] at hres
    exact absurd hres (by simp)
  | some s =>
    rw [hfind] at hres
    have hrole : s.role = r := by
      simpa using hres
    have hmem := List.mem_of_find?_eq_some hfind
    have hp := List.find?_some hfind
    unfold userAccessShare at hp
    simp only [Bool.and_eq_true, beq_iff_eq] at hp
    obtain ⟨⟨hfid2, hswu⟩, hexp⟩ := hp
    cases hty : s.shareType with
    | user => exact ⟨s, hmem, hty, hswu, hexp, hrole⟩
    | link =>
      have hnone := hinv s hmem hty
      rw [hswu] at hnone
      exact absurd hnone (by simp)

/-- Witness for C9: with a direct grant and a link share both stored on f1,
adding one more link share keeps the invariant, and the Allowed(viewer)
decision for u2 is backed by the direct grant. -/
theorem link_grants_never_grant_user_access_w :
    linkInv (runOps ⟨[fOwner], [uAlice, uBob], [sDirect, sLink], []⟩
      [Op.shareLink 0 "s9" "e9" "tk9" (some "u1") "f1" none]) ∧
    ∃ s ∈ (⟨[fOwner], [uAlice, uBob], [sDirect, sLink], []⟩ : DB).shares,
      s.shareType = .user ∧ s.sharedWithUserId = some "u2" ∧
      shareNotExpired 0 s = true ∧ s.role = .viewer := by
  have h := link_grants_never_grant_user_access
    ⟨[fOwner], [uAlice, uBob], [sDirect, sLink], []⟩
    [Op.shareLink 0 "s9" "e9" "tk9" (some "u1") "f1" none]
  exact ⟨h.1 (by decide),
    h.2 0 "u2" "f1" fOwner .viewer (by decide) (by decide) (by decide) (by decide)⟩

/-- Claim C10: after a successful file delete the audit log holds no entry
for that file: the handler appends its delete entry before removing the
file row, and the cascade deletes every audit row with that fileId,
including the entry just appended — the remaining log is exactly the old
log minus that file's entries. -/
theorem delete_audit_entry_cascades_away (db : DB) (eid uid fileId : String)
    (f : FileRec)
    (hf : db.files.find? (fun x => x.id == fileId) = some f)
    (hown : f.ownerId = uid) :
    ∃ db2, deleteFile db eid (some uid) fileId = .ok db2 ∧
      db2.activity = db.activity.filter (fun e => e.fileId != fileId) ∧
      ∀ e ∈ db2.activity, e.fileId ≠ fileId := by
  have hfid : f.id = fileId := by simpa using List.find?_some hf
  have hdel : deleteFile db eid (some uid) fileId =
      .ok { files := db.files.filter (fun x => x.id != fileId),
            users := db.users,
            shares := db.shares.filter (fun s => s.fileId != fileId),
            activity :=
              (db.activity ++
                [({ id := eid, fileId := f.id, userId := uid,
                    activityType := .delete, metadata := none } : ActivityEntry)]).filter
                (fun e => e.fileId != fileId) } := by
    unfold deleteFile
    dsimp only
    rw [hf]
    dsimp only
    simp [hown]
  refine ⟨_, hdel, ?_, ?_⟩
  · show (db.activity ++
        [({ id := eid, fileId := f.id, userId := uid,
            activityType := .delete, metadata := none } : ActivityEntry)]).filter
          (fun e => e.fileId != fileId)
      = db.activity.filter (fun e => e.fileId != fileId)
    rw [List.filter_append]
    simp [hfid]
  · intro e he
    dsimp only at he
    have hkeep := (List.mem_filter.mp he).2
    simpa using hkeep

/-- Witness for C10: deleting f1, whose log holds its upload entry, leaves
an activity log with no entry for f1 at all. -/
theorem delete_audit_entry_cascades_away_w :
    ∃ db2,
      deleteFile
          ⟨[fOwner], [uAlice],  [sDirect],
           [{ id := "e0", fileId := "f1", userId := "u1",
              activityType := .upload, metadata := none }]⟩
          "e7" (some "u1") "f1" = .ok db2 ∧
      db2.activity =
        List.filter (fun e => e.fileId != "f1")
          [{ id := "e0", fileId := "f1", userId := "u1",
             activityType := .upload, metadata := none }] ∧
      ∀ e ∈ db2.activity, e.fileId ≠ "f1" :=
  delete_audit_entry_cascades_away _ "e7" "u1" "f1" fOwner (by decide) (by decide)

end NuaFS
